import Mathlib

/-!
Verification of the object-replication and scheduled-snapshot subsystem
(services/web WebDAV/Git backup features and the object-persistor
SyncPersistor), as a shallow embedding in Lean 4.

Sources embedded:
* `src/libraries/object-persistor/src/SyncPersistor.js`
* `src/services/web/app/src/Features/WebDAV/WebDAVBackupService.mjs`
* `src/services/web/app/src/Features/GitBackup/GitBackupService.mjs`
* `src/services/web/app/src/Features/WebDAV/WebDAVProjectHandler.mjs`

JavaScript `Date` values are modelled as natural numbers of milliseconds
since the epoch; byte buffers as lists of naturals below 256; JS strings
as Lean strings or lists of characters where character-level reasoning is
needed.  External collaborators (the node `crypto` cipher, the remote
store network clients, the database) are modelled by their contracts, as
parameters of the embedded functions.
-/

namespace OverleafSync

/- ===================================================================
   Part 1: SyncPersistor (src/libraries/object-persistor/src/SyncPersistor.js)
   =================================================================== -/

/-- An object stored on one side (primary or secondary store): its content
bytes (abstracted to a `String`) and its `lastModified` timestamp in
milliseconds (`meta.lastModified.getTime()` in the source). -/
structure StoredObject where
  content : String
  lastModified : Nat
  deriving DecidableEq, Repr

/-- The state of one key on the two stores.  `none` models a missing
object, i.e. `getObjectMetadata` throwing (the source treats a metadata
fetch error as "missing", lines 139-149 of SyncPersistor.js). -/
structure SyncState where
  primary : Option StoredObject
  secondary : Option StoredObject
  deriving DecidableEq, Repr

/-- The direction of transfer chosen by `syncFile`. -/
inductive SyncAction
  | noop
  | push  -- `_syncToRemote`: copy primary to secondary
  | pull  -- `_syncToLocal`: copy secondary to primary
  deriving DecidableEq, Repr

/-- The decision table of `SyncPersistor.syncFile` (lines 132-185).
`hasRemote` models `getSyncPersistor` returning non-null, i.e. the unit
has an enabled remote config (`config && config.url && config.enabled`). -/
def syncFileAction (hasRemote : Bool) (st : SyncState) : SyncAction :=
  if !hasRemote then .noop
  else
    match st.primary, st.secondary with
    | none, none => .noop
    | some _, none => .push
    | none, some _ => .pull
    | some p, some s =>
      if s.lastModified > p.lastModified then .pull
      else if s.lastModified < p.lastModified then .push
      else .noop

/-- Effect of one transfer on the two stores.  `writeTime` is the
destination store's write timestamp for the copied object (the copy goes
through `getObjectStream`/`sendStream`, so the destination records its own
modification time). -/
def applySyncAction (writeTime : Nat) (st : SyncState) : SyncAction → SyncState
  | .noop => st
  | .push =>
    match st.primary with
    | some p => { st with secondary := some ⟨p.content, writeTime⟩ }
    | none => st
  | .pull =>
    match st.secondary with
    | some s => { st with primary := some ⟨s.content, writeTime⟩ }
    | none => st

/-- `SyncPersistor.syncFile`: decide the direction from the metadata and
perform the transfer. -/
def syncFile (hasRemote : Bool) (writeTime : Nat) (st : SyncState) : SyncState :=
  applySyncAction writeTime st (syncFileAction hasRemote st)

/- ------------------------------------------------------------------
   Write path (C3): sendFile / sendStream / copyObject
   ------------------------------------------------------------------ -/

/-- Outcome of one I/O operation against a store, as seen by a caller:
success or a thrown error. -/
inductive Outcome
  | ok
  | err (msg : String)
  deriving DecidableEq, Repr

/-- `SyncPersistor._syncToRemote` (lines 187-204): resolve the secondary
persistor (no-op when the unit has no enabled remote config), read the
object from the primary and send it to the secondary; any failure of
either step is wrapped and rethrown as a WriteError. -/
def syncToRemote (hasRemote : Bool) (readPrimary writeRemote : Outcome) : Outcome :=
  if !hasRemote then .ok
  else
    match readPrimary with
    | .err e => .err ("failed to sync to remote: " ++ e)
    | .ok =>
      match writeRemote with
      | .err e => .err ("failed to sync to remote: " ++ e)
      | .ok => .ok

/-- Result of a write-path call of SyncPersistor: the outcome returned
(or thrown) to the caller, and whether a background-sync warning got
logged. -/
structure WriteCallResult where
  callerOutcome : Outcome
  backgroundWarnLogged : Bool
  deriving DecidableEq, Repr

/-- `SyncPersistor.sendStream` (lines 45-50): `await` the primary write
(its error propagates to the caller); on success dispatch
`_syncToRemote(...).catch(log)` as a detached task whose error is only
logged. -/
def sendStream (primaryWrite : Outcome) (hasRemote : Bool)
    (readPrimary writeRemote : Outcome) : WriteCallResult :=
  match primaryWrite with
  | .err e => ⟨.err e, false⟩
  | .ok =>
    match syncToRemote hasRemote readPrimary writeRemote with
    | .err _ => ⟨.ok, true⟩
    | .ok => ⟨.ok, false⟩

/-- `SyncPersistor.sendFile` (lines 38-43): identical structure to
`sendStream`. -/
def sendFile (primaryWrite : Outcome) (hasRemote : Bool)
    (readPrimary writeRemote : Outcome) : WriteCallResult :=
  match primaryWrite with
  | .err e => ⟨.err e, false⟩
  | .ok =>
    match syncToRemote hasRemote readPrimary writeRemote with
    | .err _ => ⟨.ok, true⟩
    | .ok => ⟨.ok, false⟩

/-- `SyncPersistor.copyObject` (lines 73-81): primary copy awaited, then
detached `_syncToRemote` on the destination key, error logged only. -/
def copyObject (primaryCopy : Outcome) (hasRemote : Bool)
    (readPrimary writeRemote : Outcome) : WriteCallResult :=
  match primaryCopy with
  | .err e => ⟨.err e, false⟩
  | .ok =>
    match syncToRemote hasRemote readPrimary writeRemote with
    | .err _ => ⟨.ok, true⟩
    | .ok => ⟨.ok, false⟩

/- ===================================================================
   Part 2: BackupScheduler — checkAndTriggerBackup
   (WebDAVBackupService.mjs lines 22-96 and GitBackupService.mjs lines
   24-98; the two functions are line-for-line identical up to field
   names, so one embedding covers both.)
   =================================================================== -/

/-- The persisted backup policy sub-document
(`project.webdav.backup` / `project.gitBackup.backup`).  Missing numeric
fields are modelled as `0` (JS `undefined` is falsy exactly like `0`, and
the source only reads these fields through `x || default`).
`nextCheckTime` is `none` when unset. -/
structure BackupPolicy where
  enabled : Bool
  modificationCount : Nat
  modificationThreshold : Nat
  intervalMinutes : Nat
  nextCheckTime : Option Nat
  deriving DecidableEq, Repr

/-- Reasons returned with `triggered: false`. -/
inductive CheckReason
  | backupNotEnabled
  | notCheckTime
  | thresholdNotReached
  | errorReason
  deriving DecidableEq, Repr

/-- Result object of `checkAndTriggerBackup`. -/
inductive CheckResult
  | triggered
  | notTriggered (reason : CheckReason)
  deriving DecidableEq, Repr

/-- `backup.nextCheckTime && now < backup.nextCheckTime` (line 39 / 41).
A set `Date` is always truthy in JS, so the truthiness test is exactly
the `Option.isSome` test. -/
def isBeforeCheckTime (nextCheckTime : Option Nat) (now : Nat) : Bool :=
  match nextCheckTime with
  | some t => now < t
  | none => false

/-- `(backup.intervalMinutes || 10) * 60 * 1000` (line 45 / 47). -/
def effectiveIntervalMs (p : BackupPolicy) : Nat :=
  (if p.intervalMinutes = 0 then 10 else p.intervalMinutes) * 60 * 1000

/-- `backup.modificationThreshold || 6` (line 48 / 50). -/
def effectiveThreshold (p : BackupPolicy) : Nat :=
  if p.modificationThreshold = 0 then 6 else p.modificationThreshold

/-- `checkAndTriggerBackup` (WebDAVBackupService.mjs 22-96 /
GitBackupService.mjs 24-98).  `remoteEnabled` models
`project?.webdav?.enabled` (resp. `project?.gitBackup?.enabled`);
`now` is `new Date()` in ms.  `backupOk` models whether the inner
`createBackup(projectId)` call returns or throws; the database updates are
modelled as infallible (the persisted policy is the returned one), and
`cleanupOldBackups` catches every error internally, so `createBackup` is
the only step of the happy path that can reach the outer `catch`.  The
function returns the result object and the persisted policy state. -/
def checkAndTriggerBackup (remoteEnabled : Bool) (p : BackupPolicy) (now : Nat)
    (backupOk : Bool) : CheckResult × BackupPolicy :=
  if !(remoteEnabled && p.enabled) then
    (.notTriggered .backupNotEnabled, p)
  else if isBeforeCheckTime p.nextCheckTime now then
    (.notTriggered .notCheckTime, p)
  else
    let nextCheckTime := now + effectiveIntervalMs p
    let newCount := p.modificationCount + 1
    let threshold := effectiveThreshold p
    if newCount ≥ threshold then
      -- counter reset and nextCheckTime advance are persisted first
      -- (lines 61-69 / 63-71), then `createBackup` runs; if it throws,
      -- the catch (line 92-95 / 94-97) returns the error result while
      -- the persisted state keeps the reset.
      let p1 := { p with modificationCount := 0, nextCheckTime := some nextCheckTime }
      if backupOk then (.triggered, p1)
      else (.notTriggered .errorReason, p1)
    else
      (.notTriggered .thresholdNotReached,
       { p with modificationCount := newCount, nextCheckTime := some nextCheckTime })

/-- Run a sequence of modification events (each a wall-clock time in ms,
with the outcome of the backup should one be triggered) through
`checkAndTriggerBackup`, returning the final policy state and the list of
results. -/
def runEvents (remoteEnabled : Bool) (p : BackupPolicy) :
    List (Nat × Bool) → BackupPolicy × List CheckResult
  | [] => (p, [])
  | (now, backupOk) :: rest =>
    let (res, p1) := checkAndTriggerBackup remoteEnabled p now backupOk
    let (pFinal, results) := runEvents remoteEnabled p1 rest
    (pFinal, res :: results)

/- ===================================================================
   Part 3: Retention — listBackups / cleanupOldBackups
   (WebDAVBackupService.mjs lines 255-330; GitBackupService.mjs 282-389
   has identical list/slice/delete-loop structure over tags.)
   =================================================================== -/

/-- Snapshot ids are timestamp strings compared with `localeCompare`;
their order is the lexicographic order of the ISO timestamps, which is
the chronological order.  We model ids as naturals in that order.
`.sort((a, b) => b.name.localeCompare(a.name))` sorts newest-first. -/
def sortNewestFirst (names : List Nat) : List Nat :=
  List.insertionSort (· ≥ ·) names

/-- `listBackups` (lines 255-287): list the snapshot containers under
`{basePath}/backups` and sort them newest-first by name. -/
def listBackups (names : List Nat) : List Nat :=
  sortNewestFirst names

/-- `(project?.webdav?.backup?.maxBackups || 10)` (line 298 / 336). -/
def effectiveMaxBackups (maxBackups : Nat) : Nat :=
  if maxBackups = 0 then 10 else maxBackups

/-- `cleanupOldBackups` (lines 292-330).  `names` is the set of existing
snapshot ids on the remote; `deleteOk` models whether the per-snapshot
`deleteFile` call succeeds (a failure is logged and the loop continues).
Returns the `deleted` count actually returned and the ids remaining on
the remote afterwards. -/
def cleanupOldBackups (maxBackups : Nat) (names : List Nat)
    (deleteOk : Nat → Bool) : Nat × List Nat :=
  let maxB := effectiveMaxBackups maxBackups
  let backups := listBackups names
  if backups.length ≤ maxB then
    (0, names)
  else
    let backupsToDelete := backups.drop maxB
    let removed := backupsToDelete.filter deleteOk
    (removed.length, names.filter (fun n => !(removed.contains n)))

/- ===================================================================
   Part 4: BackupEngine — createBackup traces
   (WebDAVBackupService.mjs lines 102-250, GitBackupService.mjs lines
   104-277 and 330-389.)  The embedding records, in order, the externally
   visible state-changing steps each call performs: persisted status /
   policy field writes, git operations, and temp-directory lifecycle.
   Per-entry upload work is caught entry-by-entry in the source
   (`logger.warn`, loop continues) and never changes control flow, so it
   is not an event.
   =================================================================== -/

/-- Externally visible state-changing steps of a backup run. -/
inductive BackupEvent
  | setIsSyncing (b : Bool)          -- a `syncStatus.isSyncing` write
  | setLastSyncError (msg : String)  -- a `syncStatus.lastSyncError` write
  | setLastBackupAt                  -- the `backup.lastBackupAt = new Date()` write
  | gitClone
  | gitCommit (msg : String)
  | gitAddTag (tag : String)
  | gitPushBranch
  | gitPushTags
  | mkTempDir
  | removeTempDir
  deriving DecidableEq, Repr

/-- Result of `WebDAVBackupService.createBackup`. -/
structure WebDAVBackupResult where
  backupPath : String
  docCount : Nat
  fileCount : Nat
  deriving DecidableEq, Repr

/-- `WebDAVBackupService.createBackup` (lines 102-250).
`linked` models `getWebDAVClient` returning non-null; `docs`/`files` the
flat entry lists produced by `collectEntities` (per-entry upload failures
are irrelevant to the result, which reports `allDocs.length` /
`allFiles.length`); `unhandledErr` a failure of any non-per-entry step of
the `try` block (`findById`, `exists`/`createDirectory`, or the
`lastBackupAt` update itself), which reaches the `catch` (lines 246-249)
and is rethrown.  Returns the outcome seen by the caller and the trace of
persisted status-field writes. -/
def webdavCreateBackup (linked : Bool) (basePath timestamp : String)
    (docs files : List String) (unhandledErr : Option String) :
    Except String WebDAVBackupResult × List BackupEvent :=
  if !linked then
    (.error "Project not linked to WebDAV", [])
  else
    match unhandledErr with
    | some e => (.error e, [])
    | none =>
      let backupPath := basePath ++ "/backups/" ++ timestamp
      (.ok ⟨backupPath, docs.length, files.length⟩, [.setLastBackupAt])

/-- Result of `GitBackupService.createBackup`. -/
inductive GitBackupResult
  | noChanges
  | committed (tagName : String) (docCount fileCount : Nat)
  deriving DecidableEq, Repr

/-- The fallible steps of the git `try` block, in source order.  A value
`some phase` in `gitCreateBackup` means that step throws. -/
inductive GitPhase
  | clonePhase
  | commitPhase
  | tagPhase
  | pushPhase
  | pushTagsPhase
  | updatePhase
  deriving DecidableEq, Repr

/-- `GitBackupService.createBackup` (lines 104-277).
Control flow: `getGitClient` null → throw before the temp directory is
created; otherwise `fs.mkdtemp`, then a `try` block (clone, write all
entries, `git add .`, `git status`, early return when no files changed,
commit/tag/push/pushTags, `lastBackupAt` update), a `catch` that logs and
rethrows, and a `finally` that removes the temp directory, its own
failure only logged (lines 269-276).  `statusFiles` is
`status.files.length` after staging; `failAt` the first step of the try
block that throws, if any; `rmOk` whether the `finally` removal succeeds.
Returns the caller outcome, the event trace, and whether a
cleanup-failure warning got logged. -/
def gitCreateBackup (linked : Bool) (commitMessageBase timestamp : String)
    (statusFiles : Nat) (docCount fileCount : Nat) (failAt : Option GitPhase)
    (rmOk : Bool) : Except String GitBackupResult × List BackupEvent × Bool :=
  if !linked then
    (.error "Project not linked to Git", [], false)
  else
    let tagName := "backup-" ++ timestamp
    let commitMsg := commitMessageBase ++ " - " ++ timestamp
    let body : Except String GitBackupResult × List BackupEvent :=
      if failAt = some .clonePhase then (.error "clone failed", [])
      else
        let afterClone : List BackupEvent := [.gitClone]
        if statusFiles = 0 then (.ok .noChanges, afterClone)
        else if failAt = some .commitPhase then (.error "commit failed", afterClone)
        else
          let afterCommit := afterClone ++ [.gitCommit commitMsg]
          if failAt = some .tagPhase then (.error "tag failed", afterCommit)
          else
            let afterTag := afterCommit ++ [.gitAddTag tagName]
            if failAt = some .pushPhase then (.error "push failed", afterTag)
            else
              let afterPush := afterTag ++ [.gitPushBranch]
              if failAt = some .pushTagsPhase then (.error "push tags failed", afterPush)
              else
                let afterPushTags := afterPush ++ [.gitPushTags]
                if failAt = some .updatePhase then
                  (.error "update failed", afterPushTags)
                else
                  (.ok (.committed tagName docCount fileCount),
                   afterPushTags ++ [.setLastBackupAt])
    (body.1, .mkTempDir :: body.2 ++ [.removeTempDir], !rmOk)

/-- `GitBackupService.cleanupOldBackups` (lines 330-389).  Outer `try`
returns `{deleted: 0, error}` on any escaped error; the temp directory is
created only after the count check and the non-null `getGitClient` check,
inside an inner `try`/`finally` that always removes it; the clone can
throw (escaping to the outer catch after the `finally` ran); tag
deletions are per-tag best-effort. -/
def gitCleanupOldBackups (maxBackups : Nat) (tags : List Nat) (linked : Bool)
    (cloneOk : Bool) (deleteOk : Nat → Bool) (rmOk : Bool) :
    Nat × List BackupEvent × Bool :=
  let maxB := effectiveMaxBackups maxBackups
  if !linked then
    -- `listBackups` throws "Project not linked to Git", caught by the
    -- outer catch → {deleted: 0}
    (0, [], false)
  else
    let backups := listBackups tags
    if backups.length ≤ maxB then
      (0, [], false)
    else
      if !cloneOk then
        (0, [.mkTempDir, .removeTempDir], !rmOk)
      else
        let backupsToDelete := backups.drop maxB
        let deleted := (backupsToDelete.filter deleteOk).length
        (deleted, [.mkTempDir, .gitClone, .removeTempDir], !rmOk)

/- ===================================================================
   Part 5: CredentialVault — encryptCredentials / decryptCredentials
   (WebDAVProjectHandler.mjs lines 19-40.)  Strings are modelled as
   lists of character codes (so ':' is 58 and '0' is 48); byte buffers
   as lists of naturals below 256.  The AES-256-CBC cipher itself is the
   node `crypto` library, an external collaborator: it is modelled by a
   `BlockCipher` pair of functions, with its documented inverse property
   taken as a hypothesis where needed.  Everything the repository itself
   does — IV generation point, hex encoding, the `ivHex:cipherHex`
   format, key derivation by pad/truncate, and the split/join on ':' —
   is embedded concretely.
   =================================================================== -/

/-- Lowercase hex digit for a value below 16 (node buffers render hex in
lowercase): code 48-57 for 0-9, 97-102 for 10-15. -/
def hexDigit (n : Nat) : Nat :=
  if n < 10 then 48 + n else 87 + n

/-- Hex encoding of a byte list, two digits per byte
(`buffer.toString('hex')`). -/
def bytesToHex : List Nat → List Nat
  | [] => []
  | b :: bs => hexDigit (b / 16) :: hexDigit (b % 16) :: bytesToHex bs

/-- Value of one hex digit character code, `none` for a non-hex
character. -/
def hexCharVal (c : Nat) : Option Nat :=
  if 48 ≤ c ∧ c ≤ 57 then some (c - 48)
  else if 97 ≤ c ∧ c ≤ 102 then some (c - 87)
  else none

/-- Decode one pair of hex digits into a byte. -/
def hexPairToByte (hi lo : Nat) : Option Nat :=
  match hexCharVal hi, hexCharVal lo with
  | some v1, some v2 => some (v1 * 16 + v2)
  | _, _ => none

/-- Hex decoding (`Buffer.from(s, 'hex')`), two characters per byte. -/
def hexToBytes : List Nat → Option (List Nat)
  | [] => some []
  | [_] => none
  | hi :: lo :: rest =>
    match hexPairToByte hi lo, hexToBytes rest with
    | some b, some bs => some (b :: bs)
    | _, _ => none

/-- `encrypted.split(':')` with ':' = code 58. -/
def splitOnColon : List Nat → List (List Nat)
  | [] => [[]]
  | c :: rest =>
    if c = 58 then [] :: splitOnColon rest
    else
      match splitOnColon rest with
      | [] => [[c]]
      | g :: gs => (c :: g) :: gs

/-- `parts.join(':')`. -/
def joinColon : List (List Nat) → List Nat
  | [] => []
  | [g] => g
  | g :: g2 :: gs => g ++ 58 :: joinColon (g2 :: gs)

/-- `ENCRYPTION_KEY.padEnd(32, '0').slice(0, 32)` (lines 21 and 35):
pad the configured secret with '0' (code 48) to 32 characters, then
truncate to 32. -/
def deriveKey (secret : List Nat) : List Nat :=
  (secret ++ List.replicate (32 - secret.length) 48).take 32

/-- The external symmetric cipher (node `crypto` `createCipheriv` /
`createDecipheriv` with 'aes-256-cbc'), as a pair of byte-list functions
of key and IV.  Its inverse property is the library's contract and
appears as a hypothesis of the round-trip theorem. -/
structure BlockCipher where
  enc : List Nat → List Nat → List Nat → List Nat
  dec : List Nat → List Nat → List Nat → List Nat

/-- `encryptCredentials` (lines 19-26): draw an IV (the `crypto.randomBytes(16)`
draw is the `iv` argument), derive the key, encrypt the UTF-8 bytes of
the plaintext, and return `iv.toString('hex') + ':' + encrypted`. -/
def encryptCredentials (c : BlockCipher) (secret : List Nat) (iv : List Nat)
    (text : List Nat) : List Nat :=
  bytesToHex iv ++ 58 :: bytesToHex (c.enc (deriveKey secret) iv text)

/-- `decryptCredentials` (lines 31-40): split on ':', take the first part
as the IV hex (`parts.shift()`), rejoin the rest with ':'
(`parts.join(':')`), hex-decode both, and decrypt.  Malformed hex is
modelled as `none` (the source throws). -/
def decryptCredentials (c : BlockCipher) (secret : List Nat) (s : List Nat) :
    Option (List Nat) :=
  match splitOnColon s with
  | [] => none
  | ivHex :: rest =>
    match hexToBytes ivHex, hexToBytes (joinColon rest) with
    | some iv, some ct => some (c.dec (deriveKey secret) iv ct)
    | _, _ => none

/- ===================================================================
   Helper lemmas
   =================================================================== -/

theorem hexDigit_ne_colon (n : Nat) : hexDigit n ≠ 58 := by
  unfold hexDigit
  split_ifs <;> omega

theorem colon_not_mem_bytesToHex (bs : List Nat) : 58 ∉ bytesToHex bs := by
  induction bs with
  | nil => simp [bytesToHex]
  | cons b bs ih =>
    simp only [bytesToHex, List.mem_cons]
    push_neg
    exact ⟨(hexDigit_ne_colon _).symm, (hexDigit_ne_colon _).symm, ih⟩

theorem bytesToHex_length (bs : List Nat) : (bytesToHex bs).length = 2 * bs.length := by
  induction bs with
  | nil => rfl
  | cons b bs ih => simp [bytesToHex, ih]; omega

theorem hexCharVal_hexDigit (n : Nat) (h : n < 16) :
    hexCharVal (hexDigit n) = some n := by
  unfold hexDigit hexCharVal
  split_ifs <;> simp_all <;> omega

theorem hexPairToByte_hexDigit (b : Nat) (h : b < 256) :
    hexPairToByte (hexDigit (b / 16)) (hexDigit (b % 16)) = some b := by
  have h1 : b / 16 < 16 := by omega
  have h2 : b % 16 < 16 := by omega
  unfold hexPairToByte
  rw [hexCharVal_hexDigit _ h1, hexCharVal_hexDigit _ h2]
  simp
  omega

theorem hexToBytes_bytesToHex (bs : List Nat) (h : ∀ b ∈ bs, b < 256) :
    hexToBytes (bytesToHex bs) = some bs := by
  induction bs with
  | nil => rfl
  | cons b bs ih =>
    have hb : b < 256 := h b (List.mem_cons_self _ _)
    have hrest : ∀ x ∈ bs, x < 256 := fun x hx => h x (List.mem_cons_of_mem _ hx)
    simp only [bytesToHex, hexToBytes]
    rw [hexPairToByte_hexDigit b hb, ih hrest]

theorem bytesToHex_injOn (bs1 bs2 : List Nat) (h1 : ∀ b ∈ bs1, b < 256)
    (h2 : ∀ b ∈ bs2, b < 256) (heq : bytesToHex bs1 = bytesToHex bs2) :
    bs1 = bs2 := by
  have := hexToBytes_bytesToHex bs1 h1
  rw [heq, hexToBytes_bytesToHex bs2 h2] at this
  exact (Option.some_inj.mp this).symm

theorem splitOnColon_ne_nil (l : List Nat) : splitOnColon l ≠ [] := by
  induction l with
  | nil => simp [splitOnColon]
  | cons c rest ih =>
    simp only [splitOnColon]
    split_ifs
    · simp
    · cases h : splitOnColon rest <;> simp

theorem joinColon_splitOnColon (l : List Nat) : joinColon (splitOnColon l) = l := by
  induction l with
  | nil => rfl
  | cons c rest ih =>
    by_cases hc : c = 58
    · subst hc
      simp only [splitOnColon, if_pos rfl]
      cases h : splitOnColon rest with
      | nil => exact absurd h (splitOnColon_ne_nil rest)
      | cons g gs =>
        rw [h] at ih
        simpa [joinColon] using ih
    · simp only [splitOnColon, if_neg hc]
      cases h : splitOnColon rest with
      | nil => exact absurd h (splitOnColon_ne_nil rest)
      | cons g gs =>
        rw [h] at ih
        cases gs with
        | nil => simpa [joinColon] using ih
        | cons g2 gs2 => simpa [joinColon] using ih

theorem splitOnColon_append (a b : List Nat) (ha : 58 ∉ a) :
    splitOnColon (a ++ 58 :: b) = a :: splitOnColon b := by
  induction a with
  | nil => simp [splitOnColon]
  | cons c a ih =>
    have hc : c ≠ 58 := fun h => ha (h ▸ List.mem_cons_self _ _)
    have ha2 : 58 ∉ a := fun h => ha (List.mem_cons_of_mem _ h)
    simp only [List.cons_append, splitOnColon, if_neg hc, List.append_eq, ih ha2]

/- ===================================================================
   Claim theorems
   =================================================================== -/

/-- C1: For every key on a unit with an enabled remote config,
`SyncPersistor.syncFile` performs exactly the reconciliation decision
table: both metadata absent → no-op; only primary present → copy primary
to secondary; only secondary present → copy secondary to primary; both
present → the side with strictly greater `lastModified` overwrites the
other, and equal timestamps transfer nothing in either direction. -/
theorem C1_syncFile_decision_table (writeTime : Nat) (st : SyncState) :
    (st.primary = none → st.secondary = none →
      syncFileAction true st = .noop ∧ syncFile true writeTime st = st)
  ∧ (∀ p, st.primary = some p → st.secondary = none →
      syncFileAction true st = .push ∧
      (syncFile true writeTime st).secondary = some ⟨p.content, writeTime⟩ ∧
      (syncFile true writeTime st).primary = some p)
  ∧ (∀ s, st.primary = none → st.secondary = some s →
      syncFileAction true st = .pull ∧
      (syncFile true writeTime st).primary = some ⟨s.content, writeTime⟩ ∧
      (syncFile true writeTime st).secondary = some s)
  ∧ (∀ p s, st.primary = some p → st.secondary = some s →
      (s.lastModified > p.lastModified →
        syncFileAction true st = .pull ∧
        (syncFile true writeTime st).primary = some ⟨s.content, writeTime⟩ ∧
        (syncFile true writeTime st).secondary = some s)
    ∧ (p.lastModified > s.lastModified →
        syncFileAction true st = .push ∧
        (syncFile true writeTime st).secondary = some ⟨p.content, writeTime⟩ ∧
        (syncFile true writeTime st).primary = some p)
    ∧ (p.lastModified = s.lastModified →
        syncFileAction true st = .noop ∧ syncFile true writeTime st = st)) := by
  obtain ⟨pr, se⟩ := st
  refine ⟨?_, ?_, ?_, ?_⟩
  · rintro rfl rfl
    exact ⟨rfl, rfl⟩
  · rintro p rfl rfl
    exact ⟨rfl, rfl, rfl⟩
  · rintro s rfl rfl
    exact ⟨rfl, rfl, rfl⟩
  · rintro p s rfl rfl
    refine ⟨fun hgt => ?_, fun hgt => ?_, fun heq => ?_⟩
    · have hact : syncFileAction true ⟨some p, some s⟩ = .pull := by
        simp [syncFileAction, hgt]
      exact ⟨hact, by simp [syncFile, hact, applySyncAction], by simp [syncFile, hact, applySyncAction]⟩
    · have h1 : ¬ (s.lastModified > p.lastModified) := by omega
      have hact : syncFileAction true ⟨some p, some s⟩ = .push := by
        simp [syncFileAction, h1, hgt]
      exact ⟨hact, by simp [syncFile, hact, applySyncAction], by simp [syncFile, hact, applySyncAction]⟩
    · have h1 : ¬ (s.lastModified > p.lastModified) := by omega
      have h2 : ¬ (s.lastModified < p.lastModified) := by omega
      have hact : syncFileAction true ⟨some p, some s⟩ = .noop := by
        simp [syncFileAction, h1, h2]
      exact ⟨hact, by simp [syncFile, hact, applySyncAction]⟩

/-- Witness for C1: a concrete pair where the secondary is strictly newer
is pulled onto the primary. -/
theorem C1_syncFile_decision_table_witness :
    syncFileAction true ⟨some ⟨"a", 5⟩, some ⟨"b", 7⟩⟩ = .pull ∧
    (syncFile true 9 ⟨some ⟨"a", 5⟩, some ⟨"b", 7⟩⟩).primary = some ⟨"b", 9⟩ ∧
    (syncFile true 9 ⟨some ⟨"a", 5⟩, some ⟨"b", 7⟩⟩).secondary = some ⟨"b", 7⟩ :=
  ((C1_syncFile_decision_table 9 ⟨some ⟨"a", 5⟩, some ⟨"b", 7⟩⟩).2.2.2
    ⟨"a", 5⟩ ⟨"b", 7⟩ rfl rfl).1 (by decide)

/-- C3: For every write through SyncPersistor (`sendStream`, `sendFile`,
`copyObject`), the outcome returned or thrown to the caller is exactly
the primary-store outcome, for every behaviour of the detached secondary
replication — a secondary failure is only logged, never thrown. -/
theorem C3_write_isolation (primaryOutcome : Outcome) (hasRemote : Bool)
    (readPrimary writeRemote : Outcome) :
    (sendStream primaryOutcome hasRemote readPrimary writeRemote).callerOutcome
      = primaryOutcome
  ∧ (sendFile primaryOutcome hasRemote readPrimary writeRemote).callerOutcome
      = primaryOutcome
  ∧ (copyObject primaryOutcome hasRemote readPrimary writeRemote).callerOutcome
      = primaryOutcome := by
  cases primaryOutcome with
  | err e => simp [sendStream, sendFile, copyObject]
  | ok =>
    cases h : syncToRemote hasRemote readPrimary writeRemote <;>
      simp [sendStream, sendFile, copyObject, h]

/-- C2: against an enabled backup policy, `checkAndTriggerBackup` counts
an event only when `nextCheckTime` is unset or `now` has reached it; a
counted event increments the count by one and advances `nextCheckTime`
by the interval (in ms); an event inside the window returns
`not_check_time` and leaves the persisted state untouched; a counted
event reaching the threshold resets the counter to 0 and triggers a
snapshot.  Concretely, with threshold 3, a 10-minute interval and
`nextCheckTime` unset, events at minutes 0, 5, 12, 15, 25 are
counted / skipped / counted / skipped / counted-and-triggered, ending
with count 0 and `nextCheckTime` at minute 35. -/
theorem C2_scheduler_window_semantics :
    (∀ (p : BackupPolicy) (now : Nat) (backupOk : Bool),
       p.enabled = true → isBeforeCheckTime p.nextCheckTime now = true →
       checkAndTriggerBackup true p now backupOk = (.notTriggered .notCheckTime, p))
  ∧ (∀ (p : BackupPolicy) (now : Nat) (backupOk : Bool),
       p.enabled = true → isBeforeCheckTime p.nextCheckTime now = false →
       p.modificationCount + 1 < effectiveThreshold p →
       checkAndTriggerBackup true p now backupOk =
         (.notTriggered .thresholdNotReached,
          { p with modificationCount := p.modificationCount + 1,
                   nextCheckTime := some (now + effectiveIntervalMs p) }))
  ∧ (∀ (p : BackupPolicy) (now : Nat),
       p.enabled = true → isBeforeCheckTime p.nextCheckTime now = false →
       effectiveThreshold p ≤ p.modificationCount + 1 →
       checkAndTriggerBackup true p now true =
         (.triggered,
          { p with modificationCount := 0,
                   nextCheckTime := some (now + effectiveIntervalMs p) }))
  ∧ runEvents true ⟨true, 0, 3, 10, none⟩
      [(0, true), (300000, true), (720000, true), (900000, true), (1500000, true)] =
      (⟨true, 0, 3, 10, some 2100000⟩,
       [.notTriggered .thresholdNotReached, .notTriggered .notCheckTime,
        .notTriggered .thresholdNotReached, .notTriggered .notCheckTime,
        .triggered]) := by
  refine ⟨?_, ?_, ?_, by decide⟩
  · intro p now backupOk he hb
    simp [checkAndTriggerBackup, he, hb]
  · intro p now backupOk he hb hlt
    have hth : ¬ (effectiveThreshold p ≤ p.modificationCount + 1) := by omega
    simp [checkAndTriggerBackup, he, hb, hth]
  · intro p now he hb hth
    simp [checkAndTriggerBackup, he, hb, hth]

/-- Witness for C2: an event arriving before `nextCheckTime` is not
counted and changes nothing. -/
theorem C2_scheduler_window_semantics_witness :
    checkAndTriggerBackup true ⟨true, 0, 3, 10, some 100⟩ 50 true =
      (.notTriggered .notCheckTime, ⟨true, 0, 3, 10, some 100⟩) :=
  C2_scheduler_window_semantics.1 ⟨true, 0, 3, 10, some 100⟩ 50 true rfl (by decide)

/-- C9: the persisted `nextCheckTime`, once set, never decreases across
`checkAndTriggerBackup` calls (it is only rewritten, to
`now + interval`, at a moment when `now` has reached the previous value),
and after a counted event at time `now` every further event arriving
before `now + interval` is not counted and leaves the state unchanged. -/
theorem C9_nextCheckTime_monotone :
    (∀ (remoteEnabled : Bool) (p : BackupPolicy) (now : Nat) (backupOk : Bool) (t : Nat),
       p.nextCheckTime = some t →
       ∃ t2, (checkAndTriggerBackup remoteEnabled p now backupOk).2.nextCheckTime = some t2
         ∧ t ≤ t2)
  ∧ (∀ (p : BackupPolicy) (now : Nat) (backupOk : Bool) (now2 : Nat) (backupOk2 : Bool),
       p.enabled = true →
       isBeforeCheckTime p.nextCheckTime now = false →
       now2 < now + effectiveIntervalMs p →
       checkAndTriggerBackup true ((checkAndTriggerBackup true p now backupOk).2) now2 backupOk2
         = (.notTriggered .notCheckTime, (checkAndTriggerBackup true p now backupOk).2)) := by
  constructor
  · intro re p now backupOk t ht
    by_cases he : (re && p.enabled) = true
    · by_cases hb : isBeforeCheckTime p.nextCheckTime now = true
      · rw [ht] at hb
        exact ⟨t, by simp [checkAndTriggerBackup, he, hb, ht], le_refl t⟩
      · have hnow : t ≤ now := by
          rw [ht] at hb
          simp [isBeforeCheckTime] at hb
          omega
        refine ⟨now + effectiveIntervalMs p, ?_, by omega⟩
        by_cases hth : effectiveThreshold p ≤ p.modificationCount + 1
        · cases backupOk <;>
            simp [checkAndTriggerBackup, he, hb, hth]
        · simp [checkAndTriggerBackup, he, hb, hth]
    · exact ⟨t, by simp [checkAndTriggerBackup, he, ht], le_refl t⟩
  · intro p now backupOk now2 backupOk2 he hb hlt
    have he2 : (true && p.enabled) = true := by simp [he]
    by_cases hth : effectiveThreshold p ≤ p.modificationCount + 1
    · have hp1 : (checkAndTriggerBackup true p now backupOk).2 =
          { p with modificationCount := 0,
                   nextCheckTime := some (now + effectiveIntervalMs p) } := by
        cases backupOk <;> simp [checkAndTriggerBackup, he2, hb, hth]
      rw [hp1]
      have hb2 : isBeforeCheckTime (some (now + effectiveIntervalMs p)) now2 = true := by
        simp [isBeforeCheckTime]
        omega
      simp [checkAndTriggerBackup, he, hb2]
    · have hp1 : (checkAndTriggerBackup true p now backupOk).2 =
          { p with modificationCount := p.modificationCount + 1,
                   nextCheckTime := some (now + effectiveIntervalMs p) } := by
        simp [checkAndTriggerBackup, he2, hb, hth]
      rw [hp1]
      have hb2 : isBeforeCheckTime (some (now + effectiveIntervalMs p)) now2 = true := by
        simp [isBeforeCheckTime]
        omega
      simp [checkAndTriggerBackup, he, hb2]

/-- Witness for C9: concrete monotone step and concrete in-window skip. -/
theorem C9_nextCheckTime_monotone_witness :
    (∃ t2, (checkAndTriggerBackup true ⟨true, 0, 3, 10, some 40⟩ 50 true).2.nextCheckTime
        = some t2 ∧ 40 ≤ t2)
  ∧ checkAndTriggerBackup true
      ((checkAndTriggerBackup true ⟨true, 0, 3, 10, some 40⟩ 50 true).2) 1000 true
      = (.notTriggered .notCheckTime,
         (checkAndTriggerBackup true ⟨true, 0, 3, 10, some 40⟩ 50 true).2) :=
  ⟨C9_nextCheckTime_monotone.1 true ⟨true, 0, 3, 10, some 40⟩ 50 true 40 rfl,
   C9_nextCheckTime_monotone.2 ⟨true, 0, 3, 10, some 40⟩ 50 true 1000 true rfl
     (by decide) (by decide)⟩

/-- C10: when the threshold is reached, the counter reset and the
advanced `nextCheckTime` are persisted before `createBackup` runs, so a
`createBackup` failure yields the `error` result while the persisted
count stays 0 and `nextCheckTime` stays advanced — the counted
modifications are consumed with no snapshot produced and no earlier
retry scheduled. -/
theorem C10_counter_consumed_on_backup_error (p : BackupPolicy) (now : Nat)
    (he : p.enabled = true)
    (hcheck : isBeforeCheckTime p.nextCheckTime now = false)
    (hth : effectiveThreshold p ≤ p.modificationCount + 1) :
    checkAndTriggerBackup true p now false =
      (.notTriggered .errorReason,
       { p with modificationCount := 0,
                nextCheckTime := some (now + effectiveIntervalMs p) }) := by
  simp [checkAndTriggerBackup, he, hcheck, hth]

/-- Witness for C10: concrete failed backup after the third counted
modification. -/
theorem C10_counter_consumed_on_backup_error_witness :
    checkAndTriggerBackup true ⟨true, 2, 3, 10, none⟩ 0 false =
      (.notTriggered .errorReason, ⟨true, 0, 3, 10, some 600000⟩) :=
  C10_counter_consumed_on_backup_error ⟨true, 2, 3, 10, none⟩ 0 rfl rfl (by decide)

/-- C5: for every list of existing snapshots and `maxBackups ≥ 1`,
`cleanupOldBackups` is a no-op returning 0 deletions when the snapshot
count is at most `maxBackups`; otherwise it attempts to delete exactly
the snapshots beyond the newest `maxBackups` — so when deletions succeed
the `maxBackups` newest ids survive — each deletion best-effort, with
the count of deletions that actually succeeded returned.  In particular,
with 12 snapshots and `maxBackups = 10`, exactly the 2 oldest are
deleted. -/
theorem C5_cleanup_retention :
    (∀ (maxB : Nat) (names : List Nat) (deleteOk : Nat → Bool),
       1 ≤ maxB → names.length ≤ maxB →
       cleanupOldBackups maxB names deleteOk = (0, names))
  ∧ (∀ (maxB : Nat) (names : List Nat) (deleteOk : Nat → Bool),
       1 ≤ maxB → maxB < names.length →
       (cleanupOldBackups maxB names deleteOk).1 =
         (((sortNewestFirst names).drop maxB).filter deleteOk).length)
  ∧ (∀ (maxB : Nat) (names : List Nat),
       1 ≤ maxB → maxB < names.length → names.Nodup →
       (cleanupOldBackups maxB names (fun _ => true)).1 = names.length - maxB ∧
       List.Perm (cleanupOldBackups maxB names (fun _ => true)).2
         ((sortNewestFirst names).take maxB))
  ∧ cleanupOldBackups 10 [3, 1, 12, 5, 7, 2, 9, 4, 11, 6, 10, 8] (fun _ => true) =
      (2, [3, 12, 5, 7, 9, 4, 11, 6, 10, 8]) := by
  have hmax : ∀ maxB : Nat, 1 ≤ maxB → effectiveMaxBackups maxB = maxB := by
    intro maxB h
    simp [effectiveMaxBackups]
    omega
  have hlen : ∀ names : List Nat, (listBackups names).length = names.length :=
    fun names => (List.perm_insertionSort _ names).length_eq
  refine ⟨?_, ?_, ?_, by decide⟩
  · intro maxB names deleteOk h1 h2
    simp [cleanupOldBackups, hmax maxB h1, hlen names, h2]
  · intro maxB names deleteOk h1 h2
    have hgt : ¬ (names.length ≤ maxB) := by omega
    simp [cleanupOldBackups, hmax maxB h1, hgt, listBackups, sortNewestFirst]
  · intro maxB names h1 h2 hnodup
    have hgt : ¬ ((listBackups names).length ≤ maxB) := by rw [hlen names]; omega
    have hperm : List.Perm (sortNewestFirst names) names :=
      List.perm_insertionSort _ names
    have hfilter : ((sortNewestFirst names).drop maxB).filter (fun _ => true) =
        (sortNewestFirst names).drop maxB := List.filter_true _
    constructor
    · simp only [cleanupOldBackups, hmax maxB h1, listBackups, sortNewestFirst] at *
      rw [if_neg hgt]
      simp only [hfilter, List.length_drop]
      rw [hperm.length_eq]
    · simp only [cleanupOldBackups, hmax maxB h1, listBackups, sortNewestFirst] at *
      rw [if_neg hgt]
      simp only [hfilter]
      -- the remaining names are those not among the dropped (oldest) ones
      set sorted := List.insertionSort (fun a b => a ≥ b) names with hsorted
      set dp := sorted.drop maxB with hdp
      set tk := sorted.take maxB with htk
      have hsplit : tk ++ dp = sorted := List.take_append_drop _ _
      have hnodup2 : sorted.Nodup := (hperm.nodup_iff).mpr hnodup
      have hdisj : tk.Disjoint dp := by
        rw [← hsplit] at hnodup2
        exact List.disjoint_of_nodup_append hnodup2
      have hpred : ∀ a : Nat, (fun n => !(dp.contains n)) a = decide (a ∉ dp) := by
        intro a
        by_cases h : a ∈ dp <;> simp [h]
      have step1 : List.Perm (names.filter (fun n => !(dp.contains n)))
          (sorted.filter (fun n => !(dp.contains n))) :=
        (hperm.filter _).symm
      have step2 : sorted.filter (fun n => !(dp.contains n)) = tk := by
        rw [← hsplit, List.filter_append]
        have htkf : tk.filter (fun n => !(dp.contains n)) = tk := by
          apply List.filter_eq_self.mpr
          intro a ha
          have : a ∉ dp := hdisj ha
          simpa using this
        have hdpf : dp.filter (fun n => !(dp.contains n)) = [] := by
          apply List.filter_eq_nil_iff.mpr
          intro a ha
          simpa using ha
        rw [htkf, hdpf, List.append_nil]
      exact step2 ▸ step1

/-- Witness for C5: the concrete 12-snapshot scenario, through the
generic part of the theorem. -/
theorem C5_cleanup_retention_witness :
    (cleanupOldBackups 10 [3, 1, 12, 5, 7, 2, 9, 4, 11, 6, 10, 8] (fun _ => true)).1 = 2 ∧
    List.Perm (cleanupOldBackups 10 [3, 1, 12, 5, 7, 2, 9, 4, 11, 6, 10, 8]
        (fun _ => true)).2
      ((sortNewestFirst [3, 1, 12, 5, 7, 2, 9, 4, 11, 6, 10, 8]).take 10) :=
  C5_cleanup_retention.2.2.1 10 [3, 1, 12, 5, 7, 2, 9, 4, 11, 6, 10, 8]
    (by decide) (by decide) (by decide)

/-- C4: for every plaintext (as UTF-8 bytes), decrypting the encryption
returns the plaintext; the encrypted output has the form
`ivHex:cipherHex` with the IV prepended, so decryption is self-contained;
and two encryptions of the same plaintext under distinct fresh 16-byte
IVs never produce identical ciphertext.  The inverse property of the
external AES-256-CBC cipher and the byte-ness of its output are the
node `crypto` contract, taken as hypotheses. -/
theorem C4_credentials_roundtrip (c : BlockCipher) (secret text iv1 iv2 : List Nat)
    (hdec : c.dec (deriveKey secret) iv1 (c.enc (deriveKey secret) iv1 text) = text)
    (hiv1 : ∀ b ∈ iv1, b < 256) (hiv2 : ∀ b ∈ iv2, b < 256)
    (henc : ∀ b ∈ c.enc (deriveKey secret) iv1 text, b < 256)
    (hlen1 : iv1.length = 16) (hlen2 : iv2.length = 16) (hne : iv1 ≠ iv2) :
    decryptCredentials c secret (encryptCredentials c secret iv1 text) = some text
  ∧ (∃ ctHex, encryptCredentials c secret iv1 text = bytesToHex iv1 ++ 58 :: ctHex)
  ∧ encryptCredentials c secret iv1 text ≠ encryptCredentials c secret iv2 text := by
  refine ⟨?_, ⟨_, rfl⟩, ?_⟩
  · unfold decryptCredentials encryptCredentials
    rw [splitOnColon_append _ _ (colon_not_mem_bytesToHex iv1)]
    simp only [joinColon_splitOnColon, hexToBytes_bytesToHex iv1 hiv1,
      hexToBytes_bytesToHex _ henc, hdec]
  · intro heq
    unfold encryptCredentials at heq
    have hl : (bytesToHex iv1).length = (bytesToHex iv2).length := by
      rw [bytesToHex_length, bytesToHex_length, hlen1, hlen2]
    exact hne (bytesToHex_injOn iv1 iv2 hiv1 hiv2 (List.append_inj heq hl).1)

/-- Witness for C4: the identity cipher (trivially satisfying the
external inverse contract), a one-character secret, two distinct
16-byte IVs and the plaintext "hi". -/
theorem C4_credentials_roundtrip_witness :
    decryptCredentials ⟨fun _ _ m => m, fun _ _ m => m⟩ [107]
        (encryptCredentials ⟨fun _ _ m => m, fun _ _ m => m⟩ [107]
          (List.replicate 16 0) [104, 105]) = some [104, 105]
  ∧ (∃ ctHex, encryptCredentials ⟨fun _ _ m => m, fun _ _ m => m⟩ [107]
        (List.replicate 16 0) [104, 105] =
        bytesToHex (List.replicate 16 0) ++ 58 :: ctHex)
  ∧ encryptCredentials ⟨fun _ _ m => m, fun _ _ m => m⟩ [107]
        (List.replicate 16 0) [104, 105] ≠
      encryptCredentials ⟨fun _ _ m => m, fun _ _ m => m⟩ [107]
        (1 :: List.replicate 15 0) [104, 105] :=
  C4_credentials_roundtrip ⟨fun _ _ m => m, fun _ _ m => m⟩ [107] [104, 105]
    (List.replicate 16 0) (1 :: List.replicate 15 0) rfl (by decide) (by decide)
    (by decide) (by decide) (by decide) (by decide)

/-- C6 counterexample: a concrete successful `createBackup` run on a
linked unit whose write trace contains no `SyncStatus.isSyncing` write at
all — refuting the claim that `isSyncing` is set to true at the start of
the snapshot (and set back to false on completion); a concrete error run
recording no `lastSyncError`; and a concrete git run that completes
successfully with no changes yet records no `lastBackupAt` — refuting
"set back to false on completion together with `lastBackupAt = now`" on
that exit path as well. -/
theorem C6_createBackup_isSyncing_counterexample :
    (webdavCreateBackup true "/base" "ts" ["main.tex"] [] none).1 =
      .ok ⟨"/base/backups/ts", 1, 0⟩
  ∧ BackupEvent.setIsSyncing true ∉
      (webdavCreateBackup true "/base" "ts" ["main.tex"] [] none).2
  ∧ (webdavCreateBackup true "/base" "ts" ["main.tex"] [] (some "boom")).1
        = .error "boom"
  ∧ BackupEvent.setLastSyncError "boom" ∉
      (webdavCreateBackup true "/base" "ts" ["main.tex"] [] (some "boom")).2
  ∧ (gitCreateBackup true "m" "ts" 0 1 1 none true).1 = .ok .noChanges
  ∧ BackupEvent.setLastBackupAt ∉ (gitCreateBackup true "m" "ts" 0 1 1 none true).2.1 :=
  ⟨rfl, by simp [webdavCreateBackup], rfl, by simp [webdavCreateBackup],
   rfl, by simp [gitCreateBackup]⟩

/-- C6 as amended: `createBackup` (WebDAV and Git) never writes
`SyncStatus.isSyncing` or `SyncStatus.lastSyncError`; on successful
completion it records `backup.lastBackupAt = now` (for the git backend
only when changes were committed), and any unhandled error is re-thrown
to the caller with no status field recorded. -/
theorem C6_createBackup_status_fields (linked : Bool) (basePath timestamp : String)
    (docs files : List String) (unhandledErr : Option String)
    (commitMessageBase : String) (statusFiles docCount fileCount : Nat)
    (failAt : Option GitPhase) (rmOk : Bool) :
    (∀ b, BackupEvent.setIsSyncing b ∉
        (webdavCreateBackup linked basePath timestamp docs files unhandledErr).2)
  ∧ (∀ m, BackupEvent.setLastSyncError m ∉
        (webdavCreateBackup linked basePath timestamp docs files unhandledErr).2)
  ∧ (linked = true → unhandledErr = none →
      (webdavCreateBackup linked basePath timestamp docs files unhandledErr).1 =
        .ok ⟨basePath ++ "/backups/" ++ timestamp, docs.length, files.length⟩ ∧
      BackupEvent.setLastBackupAt ∈
        (webdavCreateBackup linked basePath timestamp docs files unhandledErr).2)
  ∧ (∀ e, linked = true → unhandledErr = some e →
      (webdavCreateBackup linked basePath timestamp docs files unhandledErr).1 = .error e ∧
      BackupEvent.setLastBackupAt ∉
        (webdavCreateBackup linked basePath timestamp docs files unhandledErr).2)
  ∧ (∀ b, BackupEvent.setIsSyncing b ∉
        (gitCreateBackup linked commitMessageBase timestamp statusFiles docCount
          fileCount failAt rmOk).2.1)
  ∧ (∀ m, BackupEvent.setLastSyncError m ∉
        (gitCreateBackup linked commitMessageBase timestamp statusFiles docCount
          fileCount failAt rmOk).2.1)
  ∧ (∀ e, (gitCreateBackup linked commitMessageBase timestamp statusFiles docCount
          fileCount failAt rmOk).1 = .error e →
      BackupEvent.setLastBackupAt ∉
        (gitCreateBackup linked commitMessageBase timestamp statusFiles docCount
          fileCount failAt rmOk).2.1)
  ∧ (linked = true → statusFiles ≠ 0 → failAt = none →
      (gitCreateBackup linked commitMessageBase timestamp statusFiles docCount
          fileCount failAt rmOk).1 =
        .ok (.committed ("backup-" ++ timestamp) docCount fileCount) ∧
      BackupEvent.setLastBackupAt ∈
        (gitCreateBackup linked commitMessageBase timestamp statusFiles docCount
          fileCount failAt rmOk).2.1)
  ∧ (linked = true → statusFiles = 0 → failAt ≠ some .clonePhase →
      (gitCreateBackup linked commitMessageBase timestamp statusFiles docCount
          fileCount failAt rmOk).1 = .ok .noChanges ∧
      BackupEvent.setLastBackupAt ∉
        (gitCreateBackup linked commitMessageBase timestamp statusFiles docCount
          fileCount failAt rmOk).2.1) := by
  cases linked with
  | false =>
    refine ⟨?_, ?_, ?_, ?_, ?_, ?_, ?_, ?_, ?_⟩ <;>
      simp [webdavCreateBackup, gitCreateBackup]
  | true =>
    refine ⟨?_, ?_, ?_, ?_, ?_, ?_, ?_, ?_, ?_⟩
    · intro b
      cases unhandledErr <;> simp [webdavCreateBackup]
    · intro m
      cases unhandledErr <;> simp [webdavCreateBackup]
    · rintro - rfl
      exact ⟨rfl, by simp [webdavCreateBackup]⟩
    · rintro e - rfl
      exact ⟨rfl, by simp [webdavCreateBackup]⟩
    · intro b
      rcases failAt with - | ph
      · by_cases hs : statusFiles = 0 <;> simp [gitCreateBackup, hs]
      · cases ph <;> by_cases hs : statusFiles = 0 <;> simp [gitCreateBackup, hs]
    · intro m
      rcases failAt with - | ph
      · by_cases hs : statusFiles = 0 <;> simp [gitCreateBackup, hs]
      · cases ph <;> by_cases hs : statusFiles = 0 <;> simp [gitCreateBackup, hs]
    · intro e herr
      rcases failAt with - | ph
      · by_cases hs : statusFiles = 0 <;> simp_all [gitCreateBackup, hs]
      · cases ph <;> by_cases hs : statusFiles = 0 <;> simp_all [gitCreateBackup, hs]
    · rintro - hs rfl
      exact ⟨by simp [gitCreateBackup, hs], by simp [gitCreateBackup, hs]⟩
    · rintro - hs hcl
      exact ⟨by simp [gitCreateBackup, hs, hcl], by simp [gitCreateBackup, hs, hcl]⟩

/-- Witness for the amended C6: a concrete successful WebDAV run records
`lastBackupAt`, and so does a concrete git run that committed changes. -/
theorem C6_createBackup_status_fields_witness :
    ((webdavCreateBackup true "/b" "t" ["d.tex"] [] none).1 =
        .ok ⟨"/b/backups/t", 1, 0⟩ ∧
      BackupEvent.setLastBackupAt ∈ (webdavCreateBackup true "/b" "t" ["d.tex"] [] none).2)
  ∧ ((gitCreateBackup true "m" "t" 2 1 0 none true).1 =
        .ok (.committed ("backup-" ++ "t") 1 0) ∧
      BackupEvent.setLastBackupAt ∈ (gitCreateBackup true "m" "t" 2 1 0 none true).2.1) :=
  ⟨(C6_createBackup_status_fields true "/b" "t" ["d.tex"] [] none "m" 2 1 0
      none true).2.2.1 rfl rfl,
   (C6_createBackup_status_fields true "/b" "t" ["d.tex"] [] none "m" 2 1 0
      none true).2.2.2.2.2.2.2.1 rfl (by decide) rfl⟩

/-- C7: on the version-control backend, when after staging the working
tree reports no changed files, `createBackup` returns successfully with
"no changes", performing no commit, creating no tag and pushing nothing;
otherwise (happy path) it commits with a timestamped message, tags the
commit `backup-{timestamp}`, and pushes both the branch and the tags. -/
theorem C7_git_no_changes_skip (commitMessageBase timestamp : String)
    (statusFiles docCount fileCount : Nat) (failAt : Option GitPhase) (rmOk : Bool) :
    (statusFiles = 0 → failAt ≠ some .clonePhase →
      (gitCreateBackup true commitMessageBase timestamp statusFiles docCount
          fileCount failAt rmOk).1 = .ok .noChanges
      ∧ (∀ m, BackupEvent.gitCommit m ∉
          (gitCreateBackup true commitMessageBase timestamp statusFiles docCount
            fileCount failAt rmOk).2.1)
      ∧ (∀ t, BackupEvent.gitAddTag t ∉
          (gitCreateBackup true commitMessageBase timestamp statusFiles docCount
            fileCount failAt rmOk).2.1)
      ∧ BackupEvent.gitPushBranch ∉
          (gitCreateBackup true commitMessageBase timestamp statusFiles docCount
            fileCount failAt rmOk).2.1
      ∧ BackupEvent.gitPushTags ∉
          (gitCreateBackup true commitMessageBase timestamp statusFiles docCount
            fileCount failAt rmOk).2.1)
  ∧ (statusFiles ≠ 0 → failAt = none →
      (gitCreateBackup true commitMessageBase timestamp statusFiles docCount
          fileCount failAt rmOk).1 =
        .ok (.committed ("backup-" ++ timestamp) docCount fileCount)
      ∧ (gitCreateBackup true commitMessageBase timestamp statusFiles docCount
          fileCount failAt rmOk).2.1 =
        [.mkTempDir, .gitClone,
         .gitCommit (commitMessageBase ++ " - " ++ timestamp),
         .gitAddTag ("backup-" ++ timestamp), .gitPushBranch, .gitPushTags,
         .setLastBackupAt, .removeTempDir]) := by
  constructor
  · intro hs hcl
    refine ⟨?_, ?_, ?_, ?_, ?_⟩ <;>
      simp [gitCreateBackup, hs, hcl]
  · rintro hs rfl
    exact ⟨by simp [gitCreateBackup, hs], by simp [gitCreateBackup, hs]⟩

/-- Witness for C7: concrete no-changes run. -/
theorem C7_git_no_changes_skip_witness :
    (gitCreateBackup true "Auto backup" "t1" 0 3 2 none true).1 = .ok .noChanges
  ∧ (∀ m, BackupEvent.gitCommit m ∉ (gitCreateBackup true "Auto backup" "t1" 0 3 2 none true).2.1)
  ∧ (∀ t, BackupEvent.gitAddTag t ∉ (gitCreateBackup true "Auto backup" "t1" 0 3 2 none true).2.1)
  ∧ BackupEvent.gitPushBranch ∉ (gitCreateBackup true "Auto backup" "t1" 0 3 2 none true).2.1
  ∧ BackupEvent.gitPushTags ∉ (gitCreateBackup true "Auto backup" "t1" 0 3 2 none true).2.1 :=
  (C7_git_no_changes_skip "Auto backup" "t1" 0 3 2 none true).1 rfl (by decide)

/-- C8: on every exit path of the git `createBackup` and of the git
retention cleanup — success, the no-changes early return, and any thrown
error — a temp directory that was created is removed by the `finally`
block, and a failure of the removal itself never alters the operation's
result. -/
theorem C8_temp_dir_removed_on_every_exit (linked : Bool)
    (commitMessageBase timestamp : String) (statusFiles docCount fileCount : Nat)
    (failAt : Option GitPhase) (maxB : Nat) (tags : List Nat) (cloneOk : Bool)
    (deleteOk : Nat → Bool) :
    (∀ rmOk, BackupEvent.mkTempDir ∈
        (gitCreateBackup linked commitMessageBase timestamp statusFiles docCount
          fileCount failAt rmOk).2.1 →
      BackupEvent.removeTempDir ∈
        (gitCreateBackup linked commitMessageBase timestamp statusFiles docCount
          fileCount failAt rmOk).2.1)
  ∧ (∀ rm1 rm2,
      (gitCreateBackup linked commitMessageBase timestamp statusFiles docCount
        fileCount failAt rm1).1 =
      (gitCreateBackup linked commitMessageBase timestamp statusFiles docCount
        fileCount failAt rm2).1)
  ∧ (∀ rmOk, BackupEvent.mkTempDir ∈
        (gitCleanupOldBackups maxB tags linked cloneOk deleteOk rmOk).2.1 →
      BackupEvent.removeTempDir ∈
        (gitCleanupOldBackups maxB tags linked cloneOk deleteOk rmOk).2.1)
  ∧ (∀ rm1 rm2,
      (gitCleanupOldBackups maxB tags linked cloneOk deleteOk rm1).1 =
      (gitCleanupOldBackups maxB tags linked cloneOk deleteOk rm2).1) := by
  refine ⟨?_, ?_, ?_, ?_⟩
  · intro rmOk hmem
    cases linked with
    | false => simp [gitCreateBackup] at hmem
    | true => simp [gitCreateBackup]
  · intro rm1 rm2
    cases linked <;> simp [gitCreateBackup]
  · intro rmOk hmem
    cases linked with
    | false => simp [gitCleanupOldBackups] at hmem
    | true =>
      by_cases hcnt : (listBackups tags).length ≤ effectiveMaxBackups maxB
      · simp [gitCleanupOldBackups, hcnt] at hmem
      · cases cloneOk <;> simp [gitCleanupOldBackups, hcnt]
  · intro rm1 rm2
    cases linked with
    | false => simp [gitCleanupOldBackups]
    | true =>
      by_cases hcnt : (listBackups tags).length ≤ effectiveMaxBackups maxB
      · simp [gitCleanupOldBackups, hcnt]
      · cases cloneOk <;> simp [gitCleanupOldBackups, hcnt]

/-- Witness for C8: concrete error path (push fails) still removes the
temp directory. -/
theorem C8_temp_dir_removed_on_every_exit_witness :
    BackupEvent.removeTempDir ∈
      (gitCreateBackup true "m" "t" 2 1 1 (some .pushPhase) false).2.1 :=
  (C8_temp_dir_removed_on_every_exit true "m" "t" 2 1 1 (some .pushPhase) 10 []
    true (fun _ => true)).1 false (by decide)

end OverleafSync
